import Mathlib

/-!
Shallow embedding of the subtitle-synchronized slideshow pipeline of this
repository (source files app.py and turner.py): SRT cue-boundary parsing,
per-image display-duration allocation, and the request pipeline of the
create_video route.

Modeling conventions: timestamps and durations are rationals; Python float
arithmetic is idealized as exact rational arithmetic, and the Python builtin
round(x, 2) is modeled exactly on rationals with its round-half-to-even rule.
The regex character class for digits is modeled as the ASCII digits 0-9.
-/

attribute [local semireducible] Rat.add Rat.sub Rat.mul Rat.inv

namespace FacelessYT

/-- Numeric value of a digit character. -/
def digitVal (c : Char) : ℕ := c.toNat - 48

/-- Read exactly two digit characters (a two-digit group of the cue
boundary regex in parse_srt_durations). -/
def readTwo : List Char → Option (ℕ × List Char)
  | a :: b :: rest =>
    if a.isDigit && b.isDigit then some (10 * digitVal a + digitVal b, rest) else none
  | _ => none

/-- Read exactly three digit characters (a millisecond group of the regex). -/
def readThree : List Char → Option (ℕ × List Char)
  | a :: b :: c :: rest =>
    if a.isDigit && b.isDigit && c.isDigit then
      some (100 * digitVal a + 10 * digitVal b + digitVal c, rest)
    else none
  | _ => none

/-- Consume one expected literal character. -/
def readChar (c : Char) : List Char → Option (List Char)
  | x :: rest => if x = c then some rest else none
  | [] => none

/-- Raw timestamp fields captured from HH:MM:SS,mmm - hours, minutes,
seconds, milliseconds. -/
abbrev Stamp := ℕ × ℕ × ℕ × ℕ

/-- Read one timestamp of the form HH:MM:SS,mmm (two digits, colon, two
digits, colon, two digits, comma, three digits). -/
def readStamp (cs : List Char) : Option (Stamp × List Char) := do
  let (h, cs1) ← readTwo cs
  let cs2 ← readChar ':' cs1
  let (m, cs3) ← readTwo cs2
  let cs4 ← readChar ':' cs3
  let (s, cs5) ← readTwo cs4
  let cs6 ← readChar ',' cs5
  let (ms, cs7) ← readThree cs6
  some ((h, m, s, ms), cs7)

/-- Consume the literal arrow separator: space, dash, dash, greater-than,
space. -/
def readArrow (cs : List Char) : Option (List Char) := do
  let cs1 ← readChar ' ' cs
  let cs2 ← readChar '-' cs1
  let cs3 ← readChar '-' cs2
  let cs4 ← readChar '>' cs3
  readChar ' ' cs4

/-- Model of re.match of the cue-boundary pattern against one line:
anchored at the start of the line, trailing characters unconstrained.
Returns the two captured timestamps. -/
def matchBoundary (line : String) : Option (Stamp × Stamp) := do
  let (t1, cs1) ← readStamp line.toList
  let cs2 ← readArrow cs1
  let (t2, _) ← readStamp cs2
  some (t1, t2)

/-- Timestamp fields to seconds, as in the source:
hours times 3600 plus minutes times 60 plus seconds plus ms divided by 1000. -/
def stampSeconds (t : Stamp) : ℚ :=
  (t.1 : ℚ) * 3600 + (t.2.1 : ℚ) * 60 + (t.2.2.1 : ℚ) + (t.2.2.2 : ℚ) / 1000

/-- Floor of a rational, computed on its reduced numerator and
denominator so that kernel reduction can evaluate it. -/
def ratFloor (q : ℚ) : ℤ := q.num.fdiv q.den

/-- Round half to even (the Python builtin round) to an integer. -/
def roundHalfEven (q : ℚ) : ℤ :=
  if q - ratFloor q < 1 / 2 then ratFloor q
  else if 1 / 2 < q - ratFloor q then ratFloor q + 1
  else if ratFloor q % 2 = 0 then ratFloor q else ratFloor q + 1

/-- Python round(q, 2), modeled exactly on rationals. -/
def round2 (q : ℚ) : ℚ := (roundHalfEven (100 * q) : ℚ) / 100

/-- Result triple of parse_srt_durations: per-cue durations, the end
timestamp of the last matched line, the duration of the last matched line. -/
structure ParseResult where
  durations : List ℚ
  lastTimestamp : ℚ
  lastDuration : ℚ
  deriving DecidableEq

/-- Body of the line loop of parse_srt_durations: a non-matching line
leaves the state unchanged; a matching line appends the rounded duration
and records the end timestamp. -/
def parseStep (acc : ParseResult) (line : String) : ParseResult :=
  match matchBoundary line with
  | none => acc
  | some (t1, t2) =>
    let dur := round2 (stampSeconds t2 - stampSeconds t1)
    ⟨acc.durations ++ [dur], stampSeconds t2, dur⟩

/-- Embedding of parse_srt_durations (app.py lines 26-63 and turner.py
lines 16-32), over the list of lines of the subtitle file. -/
def parse_srt_durations (lines : List String) : ParseResult :=
  lines.foldl parseStep ⟨[], 0, 0⟩

/-- Embedding of subtitles_per_image, the block size
max(1, floor(N / num_images)) (app.py line 176, turner.py line 48). -/
def subtitlesPerImage (n numImages : ℕ) : ℕ := max 1 (n / numImages)

/-- Python slice l[a : a + len] of a list. -/
def pySlice (l : List ℚ) (a len : ℕ) : List ℚ := (l.drop a).take len

/-- The per-image duration loop (app.py lines 179-184, turner.py lines
51-56): image i receives the sum of the slice of width
subtitles_per_image starting at i times that width. -/
def imageDurations (d : List ℚ) (numImages : ℕ) : List ℚ :=
  let spi := subtitlesPerImage d.length numImages
  (List.range numImages).map (fun i => (pySlice d (i * spi) spi).sum)

/-- Python statement adding b to the last element of a list. The
empty-list case mirrors the guarded call sites (the emptiness checks
preceding app.py line 149 and guarding app.py line 188). -/
def extendLastBy (l : List ℚ) (b : ℚ) : List ℚ :=
  if l = [] then [] else l.dropLast ++ [l.getLastD 0 + b]

/-- Failure kinds arising in the allocator code paths. The noImages case
is the "No images were downloaded." response of app.py; the other two
are the uncaught Python exceptions turner.py can raise. -/
inductive Err where
  | noImages
  | indexError
  | zeroDivisionError
  deriving DecidableEq

deriving instance DecidableEq for Except

/-- Embedding of app.py lines 171-188: the num_images == 0 guard, then
the block-size division, the per-image sums, and the final extension of
the last image duration by 5. Expects d to be the subtitle durations
already extended at the last cue (app.py line 149). -/
def allocate (d : List ℚ) (numImages : ℕ) : Except Err (List ℚ) :=
  if numImages = 0 then .error .noImages
  else .ok (extendLastBy (imageDurations d numImages) 5)

/-- Embedding of turner.py lines 35-60: extending the last cue duration
raises IndexError on an empty list (line 38); the block-size division
raises ZeroDivisionError when the image folder is empty (line 48 - there
is no guard); otherwise the per-image sums and the final extension. -/
def turnerAllocate (d : List ℚ) (numImages : ℕ) : Except Err (List ℚ) :=
  if d = [] then .error .indexError
  else if numImages = 0 then .error .zeroDivisionError
  else .ok (extendLastBy (imageDurations (extendLastBy d 5) numImages) 5)

/-- Embedding of final_video_duration = last_subtitle_timestamp + 5
(app.py line 152, turner.py line 41). -/
def finalVideoDuration (lastTimestamp : ℚ) : ℚ := lastTimestamp + 5

/-- Frame-source pairs written to the concat list file: one file line and
one duration line per image (app.py lines 192-195). -/
def frameSource (paths : List String) (durs : List ℚ) : List (String × ℚ) :=
  paths.zip durs

/-- Request fields of the create_video route (app.py lines 103-113).
Missing JSON fields and empty strings are both falsy in the validation at
line 116, so absent optional strings are modeled as the empty string. -/
structure Request where
  imagesUrls : List String
  audioUrl : String
  subtitleUrl : String
  outputName : String
  bucketName : String
  gcsOutputPath : String

/-- External-world oracle for one request: outcomes of the downloads, the
content of the downloaded subtitle file, the exit status and diagnostic
streams of the two encoder invocations, and the upload outcome. -/
structure World where
  audioOk : Bool
  subtitleOk : Bool
  subtitleLines : List String
  imageOk : ℕ → Bool
  writeListOk : Bool
  ffmpeg1Exit : ℕ
  ffmpeg1Out : String
  ffmpeg1Err : String
  ffmpeg2Exit : ℕ
  ffmpeg2Out : String
  ffmpeg2Err : String
  uploadOk : Bool

/-- Response of the create_video route, one constructor per return site of
app.py. The ok case carries final_duration_seconds and the GCS url; the
encodeFailedSlideshow and encodeFailedMux cases carry the stdout and
stderr of the failed encoder invocation (app.py lines 215-219, 239-243). -/
inductive Outcome where
  | ok (finalDuration : ℚ) (gcsUrl : String)
  | missingFields
  | inputDownloadFailed
  | emptyTimeline
  | imageDownloadFailed (url : String)
  | noImages
  | writeListFailed
  | encodeFailedSlideshow (stdout stderr : String)
  | encodeFailedMux (stdout stderr : String)
  | uploadFailed
  deriving DecidableEq

/-- Observable result of one request: the response, the files left in /tmp
(the working area) and in the /tmp/images folder, the encoder invocations
performed in order (1 = slideshow stage, 2 = mux stage), and the number of
publisher (GCS upload) invocations. -/
structure RunResult where
  outcome : Outcome
  tmpFiles : List String
  imageFiles : List String
  encoderCalls : List ℕ
  publisherCalls : ℕ
  deriving DecidableEq

/-- Local path of the downloaded audio file (app.py line 122). -/
def audioPath : String := "/tmp/audio.mp3"

/-- Local path of the downloaded subtitle file (app.py line 121). -/
def subtitlePath : String := "/tmp/subtitle.srt"

/-- Local path of the intermediate stage-1 artifact (app.py line 126). -/
def tempVideoPath : String := "/tmp/temp_video.mp4"

/-- Local path of the concat list file (app.py line 128). -/
def imageListPath : String := "/tmp/image_list.txt"

/-- Deleting one file: os.remove via safe_delete. -/
def removeFile (p : String) (fs : List String) : List String :=
  fs.filter (fun q => q ≠ p)

/-- Deleting each file of a target list in turn (the cleanup loop over
os.listdir at app.py lines 257-258). -/
def removeAll (targets fs : List String) : List String :=
  targets.foldl (fun acc t => removeFile t acc) fs

/-- Characters after the last occurrence of a separator (the whole list
when the separator does not occur). -/
def lastComponent (sep : Char) (cs : List Char) : List Char :=
  cs.foldl (fun acc c => if c = sep then [] else acc ++ [c]) []

/-- Extension derived from a url by os.path.splitext, with the ".jpg"
fallback for an extensionless name (app.py lines 158-160). -/
def extOf (url : String) : String :=
  let base := lastComponent '/' url.toList
  if base.contains '.' then "." ++ String.mk (lastComponent '.' base) else ".jpg"

/-- Local basename of the idx-th downloaded image (app.py line 161). -/
def imageName (idx : ℕ) (url : String) : String :=
  "image_" ++ toString idx ++ extOf url

/-- The image download loop (app.py lines 155-166): downloads images in
order starting at index 1; on the first failure the route returns, so the
loop yields the basenames downloaded so far and the failing url. -/
def downloadImages : List String → (ℕ → Bool) → ℕ → List String × Option String
  | [], _, _ => ([], none)
  | u :: us, ok, idx =>
    if ok idx then
      let r := downloadImages us ok (idx + 1)
      (imageName idx u :: r.1, r.2)
    else ([], some u)

/-- Embedding of the create_video route (app.py lines 90-269), from the
parsed JSON request and the external-world oracle to the response, the
files remaining in the working area, and the collaborator-invocation
trace. Every early return of the route is one branch. -/
def createVideo (req : Request) (w : World) : RunResult :=
  if req.imagesUrls = [] ∨ req.audioUrl = "" ∨ req.subtitleUrl = "" ∨ req.bucketName = "" then
    ⟨.missingFields, [], [], [], 0⟩
  else if w.audioOk = false then
    ⟨.inputDownloadFailed, [], [], [], 0⟩
  else if w.subtitleOk = false then
    ⟨.inputDownloadFailed, [audioPath], [], [], 0⟩
  else
    let files0 := [subtitlePath, audioPath]
    let pr := parse_srt_durations w.subtitleLines
    if pr.durations = [] then
      ⟨.emptyTimeline, files0, [], [], 0⟩
    else
      let durs := extendLastBy pr.durations 5
      let finalDuration := finalVideoDuration pr.lastTimestamp
      let dl := downloadImages req.imagesUrls w.imageOk 1
      match dl.2 with
      | some badUrl => ⟨.imageDownloadFailed badUrl, files0, dl.1, [], 0⟩
      | none =>
        let names := dl.1
        match allocate durs names.length with
        | .error _ => ⟨.noImages, files0, names, [], 0⟩
        | .ok _ =>
          if w.writeListOk = false then
            ⟨.writeListFailed, files0, names, [], 0⟩
          else
            let files1 := imageListPath :: files0
            if w.ffmpeg1Exit ≠ 0 then
              ⟨.encodeFailedSlideshow w.ffmpeg1Out w.ffmpeg1Err, files1, names, [1], 0⟩
            else
              let files2 := tempVideoPath :: files1
              if w.ffmpeg2Exit ≠ 0 then
                ⟨.encodeFailedMux w.ffmpeg2Out w.ffmpeg2Err, files2, names, [1, 2], 0⟩
              else
                let outPath := "/tmp/" ++ req.outputName
                let files3 := outPath :: files2
                if w.uploadOk = false then
                  ⟨.uploadFailed, files3, names, [1, 2], 1⟩
                else
                  let cleaned :=
                    removeFile imageListPath
                      (removeFile audioPath
                        (removeFile subtitlePath
                          (removeFile outPath (removeFile tempVideoPath files3))))
                  ⟨.ok finalDuration
                      ("https://storage.googleapis.com/" ++ req.bucketName ++ "/"
                        ++ req.gcsOutputPath),
                    cleaned, removeAll names names, [1, 2], 1⟩

/-- Duration of one matched cue. -/
def cueDuration (p : Stamp × Stamp) : ℚ := round2 (stampSeconds p.2 - stampSeconds p.1)

/-- End timestamp of one matched cue. -/
def cueEnd (p : Stamp × Stamp) : ℚ := stampSeconds p.2

/-- Subtitle text of Scenario A of the spec: three cues of duration 1.0
with the last cue ending at 6.0 seconds, interleaved with index and text
lines. -/
def srtScenarioA : List String :=
  ["1", "00:00:01,000 --> 00:00:02,000", "Hello", "",
   "2", "00:00:03,000 --> 00:00:04,000", "World", "",
   "3", "00:00:05,000 --> 00:00:06,000", "Bye"]

/-- Subtitle text of Scenario B of the spec: seven cues of duration 1.0
with the last cue ending at 10.0 seconds. -/
def srtScenarioB : List String :=
  ["00:00:00,000 --> 00:00:01,000", "00:00:01,000 --> 00:00:02,000",
   "00:00:02,000 --> 00:00:03,000", "00:00:03,000 --> 00:00:04,000",
   "00:00:04,000 --> 00:00:05,000", "00:00:05,000 --> 00:00:06,000",
   "00:00:09,000 --> 00:00:10,000"]

/-- A well-formed request with three images, used to exercise the
pipeline at concrete inputs. -/
def reqDemo : Request :=
  ⟨["https://bucket/img1.jpg", "https://bucket/img2.jpg", "https://bucket/img3.jpg"],
   "https://bucket/a.mp3", "https://bucket/s.srt", "final_video.mp4", "bucket",
   "out/final_video.mp4"⟩

/-- A world in which every download, both encoder invocations, and the
upload succeed, with the Scenario A subtitle text. -/
def worldSuccess : World :=
  ⟨true, true, srtScenarioA, fun _ => true, true, 0, "", "", 0, "", "", true⟩

/-- Same world except that the second (mux) encoder invocation exits
non-zero. -/
def worldMuxFail : World :=
  { worldSuccess with ffmpeg2Exit := 1, ffmpeg2Out := "mux stdout", ffmpeg2Err := "mux stderr" }

/-- Same world except that the first (slideshow) encoder invocation exits
non-zero. -/
def worldSlideshowFail : World :=
  { worldSuccess with
      ffmpeg1Exit := 1, ffmpeg1Out := "slideshow stdout", ffmpeg1Err := "slideshow stderr" }

/-- Same world except that no line of the subtitle text matches the
cue-boundary pattern. -/
def worldNoCues : World :=
  { worldSuccess with subtitleLines := ["1", "not a timestamp", ""] }

/-! General lemmas about the embedded definitions. -/

theorem foldl_parseStep (lines : List String) (acc : ParseResult) :
    lines.foldl parseStep acc =
      ⟨acc.durations ++ (lines.filterMap matchBoundary).map cueDuration,
        ((lines.filterMap matchBoundary).map cueEnd).getLastD acc.lastTimestamp,
        ((lines.filterMap matchBoundary).map cueDuration).getLastD acc.lastDuration⟩ := by
  induction lines generalizing acc with
  | nil => simp
  | cons l ls ih =>
    cases h : matchBoundary l with
    | none => simp [parseStep, h, ih]
    | some p =>
      obtain ⟨t1, t2⟩ := p
      have hstep : parseStep acc l =
          ⟨acc.durations ++ [cueDuration (t1, t2)], cueEnd (t1, t2),
            cueDuration (t1, t2)⟩ := by
        simp [parseStep, h, cueDuration, cueEnd]
      rw [List.foldl_cons, hstep, ih, List.filterMap_cons_some h]
      simp only [ParseResult.mk.injEq, List.map_cons, List.getLastD_cons]
      simp [List.append_assoc]

theorem parse_durations_eq (lines : List String) :
    (parse_srt_durations lines).durations =
      (lines.filterMap matchBoundary).map cueDuration := by
  rw [parse_srt_durations, foldl_parseStep]
  rfl

theorem parse_lastTimestamp_eq (lines : List String) :
    (parse_srt_durations lines).lastTimestamp =
      ((lines.filterMap matchBoundary).map cueEnd).getLastD 0 := by
  rw [parse_srt_durations, foldl_parseStep]

theorem parse_durations_nil_iff (lines : List String) :
    (parse_srt_durations lines).durations = [] ↔
      lines.filterMap matchBoundary = [] := by
  rw [parse_durations_eq, List.map_eq_nil_iff]

theorem extendLastBy_length (l : List ℚ) (b : ℚ) :
    (extendLastBy l b).length = l.length := by
  rw [extendLastBy]
  split
  · simp [*]
  · next h =>
    have := List.length_pos.mpr h
    simp
    omega

theorem getLastD_eq_getLast (l : List ℚ) (h : l ≠ []) (d : ℚ) :
    l.getLastD d = l.getLast h := by
  rw [List.getLastD_eq_getLast?, List.getLast?_eq_getLast l h, Option.getD_some]

theorem extendLastBy_eq_append (l : List ℚ) (b : ℚ) (h : l ≠ []) :
    extendLastBy l b = l.dropLast ++ [l.getLast h + b] := by
  rw [extendLastBy, if_neg h, getLastD_eq_getLast l h]

theorem extendLastBy_sum (l : List ℚ) (b : ℚ) (h : l ≠ []) :
    (extendLastBy l b).sum = l.sum + b := by
  rw [extendLastBy_eq_append l b h]
  conv_rhs => rw [← List.dropLast_append_getLast h]
  simp [List.sum_append]
  ring

theorem extendLastBy_nonneg (l : List ℚ) (b : ℚ) (hb : 0 ≤ b)
    (h : ∀ x ∈ l, 0 ≤ x) : ∀ x ∈ extendLastBy l b, 0 ≤ x := by
  intro x hx
  rw [extendLastBy] at hx
  split at hx
  · simp at hx
  · next hne =>
    rcases List.mem_append.mp hx with hx1 | hx2
    · exact h x (List.dropLast_subset l hx1)
    · have hxe : x = l.getLastD 0 + b := by simpa using hx2
      have hlast : l.getLast hne ∈ l := List.getLast_mem hne
      rw [hxe, getLastD_eq_getLast l hne]
      exact add_nonneg (h _ hlast) hb

theorem extendLastBy_getLastD (l : List ℚ) (b : ℚ) (h : l ≠ []) :
    (extendLastBy l b).getLastD 0 = l.getLastD 0 + b := by
  rw [extendLastBy, if_neg h, List.getLastD_concat]

theorem take_split (l : List ℚ) (m n : ℕ) :
    l.take (m + n) = l.take m ++ (l.drop m).take n := by
  conv_lhs => rw [← List.take_append_drop m (l.take (m + n))]
  congr 1
  · rw [List.take_take]
    congr 1
    omega
  · rw [List.take_drop]

theorem imageDurations_slice_sum (d : List ℚ) (bs : ℕ) :
    ∀ k : ℕ,
      ((List.range k).map (fun i => (pySlice d (i * bs) bs).sum)).sum =
        (d.take (k * bs)).sum := by
  intro k
  induction k with
  | zero => simp
  | succ k ih =>
    rw [List.range_succ, List.map_append, List.sum_append, ih]
    rw [Nat.succ_mul, take_split d (k * bs) bs]
    simp [pySlice, List.sum_append]

theorem imageDurations_sum (d : List ℚ) (k : ℕ) :
    (imageDurations d k).sum =
      (d.take (k * subtitlesPerImage d.length k)).sum := by
  rw [imageDurations]
  exact imageDurations_slice_sum d (subtitlesPerImage d.length k) k

theorem take_sum_le (l : List ℚ) (h : ∀ x ∈ l, 0 ≤ x) (m : ℕ) :
    (l.take m).sum ≤ l.sum := by
  conv_rhs => rw [← List.take_append_drop m l]
  rw [List.sum_append]
  have : (0 : ℚ) ≤ (l.drop m).sum :=
    List.sum_nonneg fun x hx => h x (List.mem_of_mem_drop hx)
  linarith

theorem cover_iff (N k : ℕ) (hk : 1 ≤ k) :
    N ≤ k * subtitlesPerImage N k ↔ (N % k = 0 ∨ N < k) := by
  rw [subtitlesPerImage]
  rcases Nat.lt_or_ge N k with h | h
  · rw [Nat.div_eq_of_lt h]
    simp
    omega
  · have h1 : 1 ≤ N / k := (Nat.one_le_div_iff (by omega)).mpr h
    rw [max_eq_right h1]
    have h2 := Nat.div_add_mod N k
    have h3 : N % k < k := Nat.mod_lt N (by omega)
    omega

theorem cleanup_tmp (out : String) :
    removeFile imageListPath
      (removeFile audioPath
        (removeFile subtitlePath
          (removeFile out
            (removeFile tempVideoPath
              [out, tempVideoPath, imageListPath, subtitlePath, audioPath])))) = [] := by
  rw [List.eq_nil_iff_forall_not_mem]
  intro x hx
  simp only [removeFile, List.mem_filter, List.mem_cons, decide_eq_true_eq] at hx
  tauto

theorem removeAll_of_subset (ts : List String) :
    ∀ fs : List String, (∀ x ∈ fs, x ∈ ts) → removeAll ts fs = [] := by
  induction ts with
  | nil =>
    intro fs h
    have hfs : fs = [] :=
      List.eq_nil_iff_forall_not_mem.mpr fun x hx => absurd (h x hx) (List.not_mem_nil x)
    simp [removeAll, hfs]
  | cons t ts ih =>
    intro fs h
    show removeAll ts (removeFile t fs) = []
    apply ih
    intro x hx
    simp only [removeFile, List.mem_filter, decide_eq_true_eq] at hx
    rcases List.mem_cons.mp (h x hx.1) with h1 | h1
    · exact absurd h1 hx.2
    · exact h1

theorem removeAll_self (l : List String) : removeAll l l = [] :=
  removeAll_of_subset l l fun _ hx => hx

theorem downloadImages_all_ok (urls : List String) (ok : ℕ → Bool)
    (h : ∀ i, ok i = true) : ∀ idx, (downloadImages urls ok idx).2 = none := by
  induction urls with
  | nil => intro idx; simp [downloadImages]
  | cons u us ih => intro idx; simp [downloadImages, h, ih]

theorem downloadImages_all_ok_length (urls : List String) (ok : ℕ → Bool)
    (h : ∀ i, ok i = true) : ∀ idx, (downloadImages urls ok idx).1.length = urls.length := by
  induction urls with
  | nil => intro idx; simp [downloadImages]
  | cons u us ih => intro idx; simp [downloadImages, h, ih]

theorem getD_eq_get (l : List ℚ) (i : ℕ) (h : i < l.length) (d : ℚ) :
    l.getD i d = l.get ⟨i, h⟩ := by
  rw [List.getD_eq_getElem?_getD, List.getElem?_eq_getElem h]
  simp

theorem createVideo_ok_spec (req : Request) (w : World) (d : ℚ) (u : String)
    (h : (createVideo req w).outcome = Outcome.ok d u) :
    d = (parse_srt_durations w.subtitleLines).lastTimestamp + 5 ∧
    (createVideo req w).tmpFiles = [] ∧
    (createVideo req w).imageFiles = [] := by
  unfold createVideo at h ⊢
  by_cases hc1 : req.imagesUrls = [] ∨ req.audioUrl = "" ∨ req.subtitleUrl = ""
      ∨ req.bucketName = ""
  · rw [if_pos hc1] at h; exact absurd h (by simp)
  rw [if_neg hc1] at h ⊢
  by_cases hc2 : w.audioOk = false
  · rw [if_pos hc2] at h; exact absurd h (by simp)
  rw [if_neg hc2] at h ⊢
  by_cases hc3 : w.subtitleOk = false
  · rw [if_pos hc3] at h; exact absurd h (by simp)
  rw [if_neg hc3] at h ⊢
  by_cases hc4 : (parse_srt_durations w.subtitleLines).durations = []
  · rw [if_pos hc4] at h; exact absurd h (by simp)
  rw [if_neg hc4] at h ⊢
  cases hdl : (downloadImages req.imagesUrls w.imageOk 1).2 with
  | some b => simp only [hdl] at h; exact absurd h (by simp)
  | none =>
    simp only [hdl] at h ⊢
    cases halloc : allocate (extendLastBy (parse_srt_durations w.subtitleLines).durations 5)
        (downloadImages req.imagesUrls w.imageOk 1).1.length with
    | error e => simp only [halloc] at h; exact absurd h (by simp)
    | ok a =>
      simp only [halloc] at h ⊢
      by_cases hc5 : w.writeListOk = false
      · rw [if_pos hc5] at h; exact absurd h (by simp)
      rw [if_neg hc5] at h ⊢
      by_cases hc6 : w.ffmpeg1Exit ≠ 0
      · rw [if_pos hc6] at h; exact absurd h (by simp)
      rw [if_neg hc6] at h ⊢
      by_cases hc7 : w.ffmpeg2Exit ≠ 0
      · rw [if_pos hc7] at h; exact absurd h (by simp)
      rw [if_neg hc7] at h ⊢
      by_cases hc8 : w.uploadOk = false
      · rw [if_pos hc8] at h; exact absurd h (by simp)
      rw [if_neg hc8] at h ⊢
      simp only [Outcome.ok.injEq] at h
      refine ⟨?_, ?_, ?_⟩
      · rw [← h.1]; rfl
      · exact cleanup_tmp _
      · exact removeAll_self _

/-! Theorems for the claims. -/

/-- C1, counterexample: on Scenario A (three cues of duration 1.0,
lastEnd 6.0, three images, trailing buffer 5) the allocator does not
produce the image durations [1.0, 1.0, 6.0] stated by the claim. -/
theorem c1_counterexample :
    allocate (extendLastBy (parse_srt_durations srtScenarioA).durations 5) 3 ≠
      Except.ok [1, 1, 6] := by decide

/-- C1, amended: on Scenario A the parser yields cue durations
[1.0, 1.0, 1.0] and lastEnd 6.0, the allocator yields image durations
[1.0, 1.0, 11.0] (the last cue is extended by the trailing buffer before
the per-image sums, and the last image is extended by the trailing buffer
again afterwards), and targetDuration is 11.0. -/
theorem c1_scenario_a_amended :
    (parse_srt_durations srtScenarioA).durations = [1, 1, 1] ∧
    (parse_srt_durations srtScenarioA).lastTimestamp = 6 ∧
    allocate (extendLastBy (parse_srt_durations srtScenarioA).durations 5) 3 =
      Except.ok [1, 1, 11] ∧
    finalVideoDuration (parse_srt_durations srtScenarioA).lastTimestamp = 11 := by decide

/-- C2, counterexample: for the Timeline with cue durations [1, 1, 1] and
imageCount 3 the sum of the allocated image durations before the
trailing-buffer extension of the last image is 8, which exceeds the cue
sum S = 3, refuting the claimed bound. -/
theorem c2_counterexample :
    ¬ ((imageDurations (extendLastBy [1, 1, 1] 5) 3).sum ≤ ([1, 1, 1] : List ℚ).sum) := by
  decide

/-- C2, amended: the allocator sums the durations with the last cue
already extended by the trailing buffer, so for every Timeline with
nonnegative cue durations summing to S and every imageCount at least 1
the per-image sums (before the extension of the last image) total at most
S + 5, with equality exactly when N is a multiple of imageCount or
imageCount exceeds N. -/
theorem c2_sum_bound (d : List ℚ) (k : ℕ) (hd : d ≠ []) (hk : 1 ≤ k)
    (hnn : ∀ x ∈ d, 0 ≤ x) :
    (imageDurations (extendLastBy d 5) k).sum ≤ d.sum + 5 ∧
    ((imageDurations (extendLastBy d 5) k).sum = d.sum + 5 ↔
      (d.length % k = 0 ∨ d.length < k)) := by
  have hN : 0 < d.length := List.length_pos.mpr hd
  have hlen : (extendLastBy d 5).length = d.length := extendLastBy_length d 5
  have hne2 : extendLastBy d 5 ≠ [] := by
    intro hcon
    rw [hcon] at hlen
    simp at hlen
    omega
  have hsum2 : (extendLastBy d 5).sum = d.sum + 5 := extendLastBy_sum d 5 hd
  have hnn2 : ∀ x ∈ extendLastBy d 5, 0 ≤ x := extendLastBy_nonneg d 5 (by norm_num) hnn
  have hims : (imageDurations (extendLastBy d 5) k).sum =
      ((extendLastBy d 5).take (k * subtitlesPerImage d.length k)).sum := by
    rw [imageDurations_sum, hlen]
  by_cases hcov : d.length ≤ k * subtitlesPerImage d.length k
  · have htake : (extendLastBy d 5).take (k * subtitlesPerImage d.length k) =
        extendLastBy d 5 := List.take_of_length_le (by omega)
    rw [hims, htake, hsum2]
    exact ⟨le_refl _, ⟨fun _ => (cover_iff d.length k hk).mp hcov, fun _ => rfl⟩⟩
  · have hmlt2 : k * subtitlesPerImage d.length k < (extendLastBy d 5).length := by omega
    have hlast_mem : (extendLastBy d 5).getLast hne2 ∈
        (extendLastBy d 5).drop (k * subtitlesPerImage d.length k) := by
      rw [List.getLast_eq_getElem]
      refine List.mem_iff_getElem.mpr
        ⟨(extendLastBy d 5).length - 1 - k * subtitlesPerImage d.length k, by simp; omega, ?_⟩
      rw [List.getElem_drop]
      congr 1
      omega
    have hlast_ge : (5 : ℚ) ≤ (extendLastBy d 5).getLast hne2 := by
      have he1 : (extendLastBy d 5).getLast hne2 = d.getLast hd + 5 := by
        rw [← getLastD_eq_getLast (extendLastBy d 5) hne2 0, ← getLastD_eq_getLast d hd 0]
        exact extendLastBy_getLastD d 5 hd
      have hd0 : 0 ≤ d.getLast hd := hnn _ (List.getLast_mem hd)
      rw [he1]
      linarith
    have hdrop_nonneg : ∀ x ∈ (extendLastBy d 5).drop (k * subtitlesPerImage d.length k),
        0 ≤ x := fun x hx => hnn2 x (List.mem_of_mem_drop hx)
    have hdrop_ge : (5 : ℚ) ≤
        ((extendLastBy d 5).drop (k * subtitlesPerImage d.length k)).sum :=
      le_trans hlast_ge (List.single_le_sum hdrop_nonneg _ hlast_mem)
    have hsplit : (extendLastBy d 5).sum =
        ((extendLastBy d 5).take (k * subtitlesPerImage d.length k)).sum +
        ((extendLastBy d 5).drop (k * subtitlesPerImage d.length k)).sum := by
      conv_lhs =>
        rw [← List.take_append_drop (k * subtitlesPerImage d.length k) (extendLastBy d 5)]
      rw [List.sum_append]
    constructor
    · rw [hims]
      linarith
    · rw [hims]
      constructor
      · intro heq
        exfalso
        linarith
      · intro hr
        exfalso
        exact hcov ((cover_iff d.length k hk).mpr hr)

/-- C2, witness: the amended bound at the Timeline [1, 1, 1] with
imageCount 2, where the allocation sums to 2, strictly below S + 5 = 8,
and 3 is neither a multiple of 2 nor below 2. -/
theorem c2_sum_bound_witness :
    (([1, 1, 1] : List ℚ) ≠ [] ∧ 1 ≤ 2 ∧ ∀ x ∈ ([1, 1, 1] : List ℚ), 0 ≤ x) ∧
    ((imageDurations (extendLastBy [1, 1, 1] 5) 2).sum ≤ ([1, 1, 1] : List ℚ).sum + 5 ∧
      ((imageDurations (extendLastBy [1, 1, 1] 5) 2).sum = ([1, 1, 1] : List ℚ).sum + 5 ↔
        (([1, 1, 1] : List ℚ).length % 2 = 0 ∨ ([1, 1, 1] : List ℚ).length < 2))) :=
  ⟨⟨by decide, by decide, by decide⟩,
    c2_sum_bound [1, 1, 1] 2 (by decide) (by decide) (by decide)⟩

/-- C3, counterexample: when the second (mux) encoder invocation exits
non-zero, the request fails but the working area still contains the
intermediate stage-1 artifact /tmp/temp_video.mp4, so the working area is
not empty after every request. -/
theorem c3_counterexample :
    (createVideo reqDemo worldMuxFail).outcome = Outcome.encodeFailedMux "mux stdout" "mux stderr" ∧
    tempVideoPath ∈ (createVideo reqDemo worldMuxFail).tmpFiles := by decide

/-- C3, amended: cleanup runs only on the success path: whenever a request
succeeds the working area (both /tmp and the /tmp/images folder) is left
with zero files; on failure the files staged so far remain. -/
theorem c3_cleanup_on_success (req : Request) (w : World) (d : ℚ) (u : String)
    (h : (createVideo req w).outcome = Outcome.ok d u) :
    (createVideo req w).tmpFiles = [] ∧ (createVideo req w).imageFiles = [] :=
  (createVideo_ok_spec req w d u h).2

/-- C3, witness: a fully successful request, after which the working area
is empty. -/
theorem c3_cleanup_on_success_witness :
    (createVideo reqDemo worldSuccess).outcome =
      Outcome.ok 11 "https://storage.googleapis.com/bucket/out/final_video.mp4" ∧
    ((createVideo reqDemo worldSuccess).tmpFiles = [] ∧
      (createVideo reqDemo worldSuccess).imageFiles = []) :=
  ⟨by decide,
    c3_cleanup_on_success reqDemo worldSuccess 11
      "https://storage.googleapis.com/bucket/out/final_video.mp4" (by decide)⟩

/-- C4: whenever a request succeeds, the reported final duration equals
the last matched cue end timestamp plus the 5-second trailing buffer; the
statement does not involve the images of the request, so the value is
independent of imageCount and of the truncation in the allocator. -/
theorem c4_target_duration (req : Request) (w : World) (d : ℚ) (u : String)
    (h : (createVideo req w).outcome = Outcome.ok d u) :
    d = (parse_srt_durations w.subtitleLines).lastTimestamp + 5 :=
  (createVideo_ok_spec req w d u h).1

/-- C4, witness: the successful Scenario A request reports final duration
11 = 6 + 5. -/
theorem c4_target_duration_witness :
    (createVideo reqDemo worldSuccess).outcome =
      Outcome.ok 11 "https://storage.googleapis.com/bucket/out/final_video.mp4" ∧
    (11 : ℚ) = (parse_srt_durations worldSuccess.subtitleLines).lastTimestamp + 5 :=
  ⟨by decide,
    c4_target_duration reqDemo worldSuccess 11
      "https://storage.googleapis.com/bucket/out/final_video.mp4" (by decide)⟩

/-- C5: on Scenario B (seven cues of duration 1.0, lastEnd 10.0, two
images, buffer 5) the block size is floor(7/2) = 3, image 0 receives 3.0,
image 1 receives 8.0 (3.0 from cues 3..5 plus the trailing buffer; cue 6
is dropped from the per-image budget), and targetDuration is 15.0. -/
theorem c5_scenario_b :
    (parse_srt_durations srtScenarioB).durations = [1, 1, 1, 1, 1, 1, 1] ∧
    (parse_srt_durations srtScenarioB).lastTimestamp = 10 ∧
    subtitlesPerImage (extendLastBy (parse_srt_durations srtScenarioB).durations 5).length 2 = 3 ∧
    allocate (extendLastBy (parse_srt_durations srtScenarioB).durations 5) 2 =
      Except.ok [3, 8] ∧
    finalVideoDuration (parse_srt_durations srtScenarioB).lastTimestamp = 15 := by decide

/-- C6: for every input text, the parser emits exactly one cue per line
matching the boundary pattern, in file order, ignoring other lines; each
cue duration is the difference of the two timestamps converted as
H*3600 + M*60 + S + ms/1000, rounded to two decimals; and lastEnd is the
converted end timestamp of the last matching line. -/
theorem c6_parse_contract (lines : List String) :
    (parse_srt_durations lines).durations =
      (lines.filterMap matchBoundary).map (fun p =>
        round2 (((p.2.1 : ℚ) * 3600 + (p.2.2.1 : ℚ) * 60 + (p.2.2.2.1 : ℚ) +
            (p.2.2.2.2 : ℚ) / 1000) -
          ((p.1.1 : ℚ) * 3600 + (p.1.2.1 : ℚ) * 60 + (p.1.2.2.1 : ℚ) +
            (p.1.2.2.2 : ℚ) / 1000))) ∧
    (parse_srt_durations lines).lastTimestamp =
      ((lines.filterMap matchBoundary).map (fun p =>
        (p.2.1 : ℚ) * 3600 + (p.2.2.1 : ℚ) * 60 + (p.2.2.2.1 : ℚ) +
          (p.2.2.2.2 : ℚ) / 1000)).getLastD 0 := by
  constructor
  · rw [parse_durations_eq]
    rfl
  · rw [parse_lastTimestamp_eq]
    rfl

/-- C7: when the request is well-formed, the audio and subtitle downloads
succeed, and no line of the subtitle text matches the cue-boundary
pattern, the route fails with the empty-timeline error and the encoder is
never invoked. -/
theorem c7_empty_timeline (req : Request) (w : World)
    (h1 : req.imagesUrls ≠ []) (h2 : req.audioUrl ≠ "") (h3 : req.subtitleUrl ≠ "")
    (h4 : req.bucketName ≠ "") (h5 : w.audioOk = true) (h6 : w.subtitleOk = true)
    (h7 : w.subtitleLines.filterMap matchBoundary = []) :
    (createVideo req w).outcome = Outcome.emptyTimeline ∧
    (createVideo req w).encoderCalls = [] := by
  have hd : (parse_srt_durations w.subtitleLines).durations = [] :=
    (parse_durations_nil_iff _).mpr h7
  unfold createVideo
  rw [if_neg (by simp [h1, h2, h3, h4]), if_neg (by simp [h5]), if_neg (by simp [h6]),
    if_pos hd]
  exact ⟨rfl, rfl⟩

/-- C7, witness: the well-formed demo request with a subtitle text in
which no line matches the pattern. -/
theorem c7_empty_timeline_witness :
    (reqDemo.imagesUrls ≠ [] ∧ reqDemo.audioUrl ≠ "" ∧ reqDemo.subtitleUrl ≠ "" ∧
      reqDemo.bucketName ≠ "" ∧ worldNoCues.audioOk = true ∧ worldNoCues.subtitleOk = true ∧
      worldNoCues.subtitleLines.filterMap matchBoundary = []) ∧
    ((createVideo reqDemo worldNoCues).outcome = Outcome.emptyTimeline ∧
      (createVideo reqDemo worldNoCues).encoderCalls = []) :=
  ⟨⟨by decide, by decide, by decide, by decide, by decide, by decide, by decide⟩,
    c7_empty_timeline reqDemo worldNoCues (by decide) (by decide) (by decide) (by decide)
      (by decide) (by decide) (by decide)⟩

/-- C8: when the pipeline reaches the first encoder invocation and that
invocation exits non-zero, the route fails with the slideshow-stage
encode error carrying the diagnostic streams, exactly one encoder
invocation was performed (no retry), and the publisher is never
invoked. -/
theorem c8_slideshow_failure (req : Request) (w : World)
    (h1 : req.imagesUrls ≠ []) (h2 : req.audioUrl ≠ "") (h3 : req.subtitleUrl ≠ "")
    (h4 : req.bucketName ≠ "") (h5 : w.audioOk = true) (h6 : w.subtitleOk = true)
    (h7 : (parse_srt_durations w.subtitleLines).durations ≠ [])
    (h8 : ∀ i, w.imageOk i = true) (h9 : w.writeListOk = true)
    (h10 : w.ffmpeg1Exit ≠ 0) :
    (createVideo req w).outcome = Outcome.encodeFailedSlideshow w.ffmpeg1Out w.ffmpeg1Err ∧
    (createVideo req w).encoderCalls = [1] ∧
    (createVideo req w).publisherCalls = 0 := by
  unfold createVideo
  rw [if_neg (by simp [h1, h2, h3, h4]), if_neg (by simp [h5]), if_neg (by simp [h6]),
    if_neg h7]
  have hdl := downloadImages_all_ok req.imagesUrls w.imageOk h8 1
  have hlen := downloadImages_all_ok_length req.imagesUrls w.imageOk h8 1
  have hk0 : (downloadImages req.imagesUrls w.imageOk 1).1.length ≠ 0 := by
    rw [hlen]
    simpa [List.length_eq_zero] using h1
  have h9n : ¬ (w.writeListOk = false) := by simp [h9]
  simp only [hdl, allocate, if_neg hk0, if_neg h9n, if_pos h10]
  exact ⟨trivial, trivial, trivial⟩

/-- C8, witness: the demo request in the world where the first encoder
invocation exits 1. -/
theorem c8_slideshow_failure_witness :
    (reqDemo.imagesUrls ≠ [] ∧ reqDemo.audioUrl ≠ "" ∧ reqDemo.subtitleUrl ≠ "" ∧
      reqDemo.bucketName ≠ "" ∧ worldSlideshowFail.audioOk = true ∧
      worldSlideshowFail.subtitleOk = true ∧
      (parse_srt_durations worldSlideshowFail.subtitleLines).durations ≠ [] ∧
      (∀ i, worldSlideshowFail.imageOk i = true) ∧ worldSlideshowFail.writeListOk = true ∧
      worldSlideshowFail.ffmpeg1Exit ≠ 0) ∧
    ((createVideo reqDemo worldSlideshowFail).outcome =
        Outcome.encodeFailedSlideshow worldSlideshowFail.ffmpeg1Out
          worldSlideshowFail.ffmpeg1Err ∧
      (createVideo reqDemo worldSlideshowFail).encoderCalls = [1] ∧
      (createVideo reqDemo worldSlideshowFail).publisherCalls = 0) :=
  ⟨⟨by decide, by decide, by decide, by decide, by decide, by decide, by decide,
      fun _ => rfl, by decide, by decide⟩,
    c8_slideshow_failure reqDemo worldSlideshowFail (by decide) (by decide) (by decide)
      (by decide) (by decide) (by decide) (by decide) (fun _ => rfl) (by decide) (by decide)⟩

/-- C9, counterexample: in the standalone script variant (turner.py),
running the allocator with zero images reaches the block-size division
and raises ZeroDivisionError, an uncaught crash, rather than failing with
the NoImages error the claim states. -/
theorem c9_counterexample :
    turnerAllocate [1] 0 = Except.error Err.zeroDivisionError ∧
    Err.zeroDivisionError ≠ Err.noImages := by decide

/-- C9, amended: in the service (app.py) the allocator code guards
num_images = 0 and fails with the NoImages error before the block-size
division is evaluated, for every duration list; in the standalone script
(turner.py) the same situation instead raises ZeroDivisionError. -/
theorem c9_app_allocator_guard (d : List ℚ) :
    allocate d 0 = Except.error Err.noImages := rfl

/-- C10: for every nonempty Timeline with N cues and every imageCount
greater than N, the block size is 1, the allocator succeeds, every image
with index in [N, imageCount - 1) is allocated exactly 0 seconds, and the
last image is allocated exactly the 5-second trailing buffer. -/
theorem c10_overflow_images (d : List ℚ) (k : ℕ) (hd : d ≠ []) (hk : d.length < k) :
    subtitlesPerImage (extendLastBy d 5).length k = 1 ∧
    ∃ a, allocate (extendLastBy d 5) k = Except.ok a ∧
      a.length = k ∧
      (∀ i, d.length ≤ i → i < k - 1 → a.getD i 0 = 0) ∧
      a.getD (k - 1) 0 = 5 := by
  have hN : 0 < d.length := List.length_pos.mpr hd
  have hlen2 : (extendLastBy d 5).length = d.length := extendLastBy_length d 5
  have hspi : subtitlesPerImage (extendLastBy d 5).length k = 1 := by
    rw [hlen2, subtitlesPerImage, Nat.div_eq_of_lt hk]
    decide
  refine ⟨hspi, ?_⟩
  have hk0 : k ≠ 0 := by omega
  have hblen : (imageDurations (extendLastBy d 5) k).length = k := by
    simp [imageDurations]
  have hbne : imageDurations (extendLastBy d 5) k ≠ [] := by
    intro hc
    rw [hc] at hblen
    simp at hblen
    omega
  have hbget : ∀ i, i < k → d.length ≤ i →
      (imageDurations (extendLastBy d 5) k)[i]? = some 0 := by
    intro i hik hNi
    simp only [imageDurations]
    rw [List.getElem?_map, List.getElem?_range hik]
    have hdrop : (extendLastBy d 5).drop i = [] :=
      List.drop_eq_nil_of_le (by omega)
    simp [hspi, pySlice, hdrop]
  have hb0 : (imageDurations (extendLastBy d 5) k).getLastD 0 = 0 := by
    rw [List.getLastD_eq_getLast?, List.getLast?_eq_getElem?, hblen,
      hbget (k - 1) (by omega) (by omega)]
    rfl
  refine ⟨extendLastBy (imageDurations (extendLastBy d 5) k) 5, ?_, ?_, ?_, ?_⟩
  · rw [allocate, if_neg hk0]
  · rw [extendLastBy_length, hblen]
  · intro i hNi hik
    rw [List.getD_eq_getElem?_getD, extendLastBy_eq_append _ 5 hbne]
    have hidl : i < (imageDurations (extendLastBy d 5) k).dropLast.length := by
      rw [List.length_dropLast, hblen]
      omega
    rw [List.getElem?_append_left hidl, List.dropLast_eq_take,
      List.getElem?_take_of_lt (by rw [hblen]; omega),
      hbget i (by omega) hNi]
    rfl
  · rw [List.getD_eq_getElem?_getD, extendLastBy_eq_append _ 5 hbne]
    have hdll : (imageDurations (extendLastBy d 5) k).dropLast.length = k - 1 := by
      rw [List.length_dropLast, hblen]
    rw [List.getElem?_append_right (by rw [hdll]), hdll, Nat.sub_self,
      List.getElem?_cons_zero]
    simp only [Option.getD_some]
    rw [← getLastD_eq_getLast _ hbne 0, hb0]
    norm_num

/-- C10, witness: the Timeline [1] with three images: block size 1, the
allocator yields [6, 0, 5], whose entry at index 1 (in [N, imageCount-1))
is 0 and whose last entry is exactly 5. -/
theorem c10_overflow_images_witness :
    (([1] : List ℚ) ≠ [] ∧ ([1] : List ℚ).length < 3) ∧
    (subtitlesPerImage (extendLastBy [1] 5).length 3 = 1 ∧
      ∃ a, allocate (extendLastBy [1] 5) 3 = Except.ok a ∧
        a.length = 3 ∧
        (∀ i, ([1] : List ℚ).length ≤ i → i < 3 - 1 → a.getD i 0 = 0) ∧
        a.getD (3 - 1) 0 = 5) :=
  ⟨⟨by decide, by decide⟩, c10_overflow_images [1] 3 (by decide) (by decide)⟩

end FacelessYT
